import Mathlib

/-!
Verification of the Pod-manifest validator.

The definitions below are a shallow embedding of the Go validator
(package main, yamlvalid).  A parsed YAML document is modelled by the
inductive type YamlNode, mirroring the yaml.Node values the validator
consumes: a node is a scalar (with its resolved tag, raw string value
and source line), a mapping (an ordered list of key/value node pairs),
a sequence, or a document wrapper.  The Go code stores the content
of a mapping as a flat even-length array of alternating key/value nodes and
always walks it two at a time; the pair-list representation used here
is the same data under the parser invariant that the array length is
even.  Go line numbers are non-negative ints, modelled as Nat.
-/

inductive YamlNode where
  | scalar (tag : String) (value : String) (line : Nat)
  | mapping (pairs : List (YamlNode × YamlNode)) (line : Nat)
  | sequence (elems : List YamlNode) (line : Nat)
  | document (content : List YamlNode) (line : Nat)
deriving Repr

/-- Source line of a node, as read from the Line field of a yaml.Node. -/
def YamlNode.line : YamlNode → Nat
  | .scalar _ _ l => l
  | .mapping _ l => l
  | .sequence _ l => l
  | .document _ l => l

/-- Embeds the Go struct ValError: file name, line (0 = unknown), message. -/
structure ValError where
  file : String
  line : Nat
  msg : String
deriving Repr, DecidableEq

/-- Embeds the helper ve(file, line, msg). -/
def ve (file : String) (line : Nat) (msg : String) : ValError :=
  ⟨file, line, msg⟩

/-- Whitespace test used by strings.TrimSpace (unicode.IsSpace); the
Latin-1 space characters are covered, which is exhaustive for the ASCII
manifests the schema deals in. -/
def goIsSpace (c : Char) : Bool :=
  c = ' ' || c = '\t' || c = '\n' || c = '\r' ||
  c = '\x0b' || c = '\x0c' || c = '\x85' || c = '\xa0'

/-- Embeds strings.TrimSpace: drop leading and trailing whitespace. -/
def goTrimSpace (s : String) : String :=
  ⟨((s.data.dropWhile goIsSpace).reverse.dropWhile goIsSpace).reverse⟩

def goIsDigit (c : Char) : Bool := '0' ≤ c && c ≤ '9'

/-- Digit run parser backing goAtoi: all characters must be base-10
digits and at least one must be present. -/
def parseDigits (cs : List Char) : Option Nat :=
  if cs.isEmpty then none
  else if cs.all goIsDigit then
    some (cs.foldl (fun a c => a * 10 + (c.toNat - 48)) 0)
  else none

/-- Embeds strconv.Atoi (= ParseInt base 10, 64-bit int): optional sign,
one or more digits, error on anything else or on int64 overflow. -/
def goAtoi (s : String) : Option Int :=
  let p : Int × List Char :=
    match s.data with
    | '+' :: r => (1, r)
    | '-' :: r => (-1, r)
    | r => (1, r)
  match parseDigits p.2 with
  | none => none
  | some n =>
      let v : Int := p.1 * n
      if -(2 ^ 63) ≤ v ∧ v ≤ 2 ^ 63 - 1 then some v else none

def goIsLower (c : Char) : Bool := 'a' ≤ c && c ≤ 'z'

def goIsLowerDigit (c : Char) : Bool := goIsLower c || goIsDigit c

/-- States of the deterministic automaton recognising the container
name pattern of the regular expression caret [a-z]+(_[a-z0-9]+)* dollar:
needFirst = nothing read yet, inWord = inside the leading [a-z]+ run
(accepting), needGroupChar = just after an underscore, inGroup = inside
a [a-z0-9]+ group run (accepting).  The regex is alternation-free and
the separator is outside both character classes, so this automaton is
its exact determinisation. -/
inductive NameState where
  | needFirst | inWord | needGroupChar | inGroup
deriving Repr, DecidableEq

def nameStep : NameState → Char → Option NameState
  | .needFirst, c => if goIsLower c then some .inWord else none
  | .inWord, c =>
      if goIsLower c then some .inWord
      else if c = '_' then some .needGroupChar else none
  | .needGroupChar, c => if goIsLowerDigit c then some .inGroup else none
  | .inGroup, c =>
      if goIsLowerDigit c then some .inGroup
      else if c = '_' then some .needGroupChar else none

def nameAccept : NameState → Bool
  | .inWord => true
  | .inGroup => true
  | _ => false

/-- Embeds nameRe.MatchString for the anchored container-name regex. -/
def matchContainerName (s : String) : Bool :=
  match s.data.foldl (fun st c => st.bind (fun q => nameStep q c)) (some .needFirst) with
  | some q => nameAccept q
  | none => false

/-- Embeds validMemory: memRe (anchored [0-9]+(Ki|Mi|Gi)) applied to the
trimmed value.  Maximal munch on the digit run is exact because the
unit letters are not digits. -/
def validMemory (s : String) : Bool :=
  let cs := (goTrimSpace s).data
  let ds := cs.takeWhile goIsDigit
  let rest := cs.dropWhile goIsDigit
  !ds.isEmpty && (rest = ['K', 'i'] || rest = ['M', 'i'] || rest = ['G', 'i'])

/-- Embeds strings.LastIndex for a one-character needle: the byte index
of the last occurrence, -1 when absent (the strings involved are ASCII,
where byte and character indices coincide). -/
def lastIndexOfChar : List Char → Char → Int
  | [], _ => -1
  | x :: rest, c =>
      let r := lastIndexOfChar rest c
      if 0 ≤ r then r + 1 else if x = c then 0 else -1

/-- Embeds strings.HasPrefix s pre. -/
def goStartsWith (s pre : String) : Bool :=
  pre.data.isPrefixOf s.data

/-- Embeds validImage: registry prefix required, and the last colon must
come after the last slash and must not be the final byte. -/
def validImage (s : String) : Bool :=
  if goStartsWith s "registry.bigbrother.io/" then
    let lastSlash := lastIndexOfChar s.data '/'
    let colon := lastIndexOfChar s.data ':'
    decide (lastSlash < colon) && decide (colon < (s.data.length : Int) - 1)
  else false

/-- Key lookup inside the pair list of a mapping, as in the loop body of get:
the first pair whose key is a scalar with the wanted value wins. -/
def lookupPairs : List (YamlNode × YamlNode) → String → Option YamlNode
  | [], _ => none
  | (k, v) :: rest, key =>
      match k with
      | .scalar _ kv _ => if kv = key then some v else lookupPairs rest key
      | _ => lookupPairs rest key

/-- Embeds get(m, key): nil unless m is a mapping, else pairwise lookup. -/
def get : YamlNode → String → Option YamlNode
  | .mapping pairs _, key => lookupPairs pairs key
  | _, _ => none

/-- Embeds mustGet, which simply delegates to get. -/
def mustGet (m : YamlNode) (key : String) : Option YamlNode :=
  get m key

/-- Embeds firstDocument: unwrap a document node with content, else fall
back to the first content child of any node, else nil.  Scalars carry no
content; the first content entry of a mapping is its first key node. -/
def firstDocument : Option YamlNode → Option YamlNode
  | none => none
  | some (.document (c :: _) _) => some c
  | some (.document [] _) => none
  | some (.mapping ((k, _) :: _) _) => some k
  | some (.mapping [] _) => none
  | some (.sequence (c :: _) _) => some c
  | some (.sequence [] _) => none
  | some (.scalar _ _ _) => none

/-- True for scalar nodes resolved with the string tag; the Go guards
are written n.Kind != ScalarNode or n.Tag != bangbang-str. -/
def isStrScalar : YamlNode → Bool
  | .scalar tag _ _ => tag = "!!str"
  | _ => false

/-- Embeds validateScalarType: only the "string" kind is implemented;
any other requested kind falls to the default error branch. -/
def validateScalarType (file : String) (n : YamlNode) (field want : String) :
    List ValError :=
  if want = "string" then
    if isStrScalar n then [] else [ve file n.line (field ++ " must be " ++ want)]
  else [ve file n.line (field ++ " must be " ++ want)]

/-- Embeds validateStringEquals: a string scalar whose value must be one
of the allowed constants. -/
def validateStringEquals (file : String) (n : YamlNode) (field : String)
    (allowed : List String) : List ValError :=
  match n with
  | .scalar tag v line =>
      if tag = "!!str" then
        if allowed.contains v then []
        else [ve file line (field ++ " has unsupported value \x27" ++ v ++ "\x27")]
      else [ve file line (field ++ " must be string")]
  | other => [ve file other.line (field ++ " must be string")]

/-- Embeds validatePortInt: scalar whose trimmed text parses via Atoi,
with the value range check v <= 0 or v >= 65536 reported as out of range. -/
def validatePortInt (file : String) (n : YamlNode) (field : String) :
    List ValError :=
  match n with
  | .scalar _ v line =>
      match goAtoi (goTrimSpace v) with
      | none => [ve file line (field ++ " must be int")]
      | some i =>
          if i ≤ 0 ∨ 65536 ≤ i then [ve file line (field ++ " value out of range")]
          else []
  | other => [ve file other.line (field ++ " must be int")]

/-- Embeds validatePodOS, the two-shape os field: scalar string form, or
mapping form with a required name key; the resolved (trimmed) name must
be linux or windows, and the error message quotes the raw value. -/
def validatePodOS (file : String) (n : YamlNode) : List ValError :=
  match n with
  | .scalar tag v line =>
      if tag = "!!str" then
        if goTrimSpace v = "linux" ∨ goTrimSpace v = "windows" then []
        else [ve file line ("os has unsupported value \x27" ++ v ++ "\x27")]
      else [ve file line "os must be string"]
  | .mapping pairs _ =>
      (match lookupPairs pairs "name" with
       | none => [ve file 0 "os.name is required"]
       | some (.scalar tag nv nline) =>
          if tag = "!!str" then
            if goTrimSpace nv = "linux" ∨ goTrimSpace nv = "windows" then []
            else [ve file nline ("os.name has unsupported value \x27" ++ nv ++ "\x27")]
          else [ve file nline "os.name must be string"]
       | some other => [ve file other.line "os.name must be string"])
  | other => [ve file other.line "os must be object"]

/-- Label entries loop of validateObjectMeta: each key and each value of
the labels mapping must be a string scalar, both reported independently. -/
def validateLabelPairs (file : String) : List (YamlNode × YamlNode) → List ValError
  | [] => []
  | (k, v) :: rest =>
      (if isStrScalar k then [] else [ve file k.line "metadata.labels key must be string"])
        ++ (if isStrScalar v then [] else [ve file v.line "metadata.labels value must be string"])
        ++ validateLabelPairs file rest

/-- Embeds validateObjectMeta: required string name, optional string
namespace, optional labels mapping of string scalars. -/
def validateObjectMeta (file : String) (n : YamlNode) : List ValError :=
  match n with
  | .mapping pairs _ =>
      (match lookupPairs pairs "name" with
       | none => [ve file 0 "metadata.name is required"]
       | some name => validateScalarType file name "metadata.name" "string")
        ++ (match lookupPairs pairs "namespace" with
            | none => []
            | some ns => validateScalarType file ns "metadata.namespace" "string")
        ++ (match lookupPairs pairs "labels" with
            | none => []
            | some (.mapping lpairs _) => validateLabelPairs file lpairs
            | some other => [ve file other.line "metadata.labels must be object"])
  | other => [ve file other.line "metadata must be object"]

/-- Port entries loop of validatePorts: each entry must be a mapping with
a required containerPort and an optional TCP/UDP protocol. -/
def portsLoop (file : String) : List YamlNode → List ValError
  | [] => []
  | p :: rest =>
      (match p with
       | .mapping pairs _ =>
          (match lookupPairs pairs "containerPort" with
           | none => [ve file 0 "containerPort is required"]
           | some cp => validatePortInt file cp "containerPort")
            ++ (match lookupPairs pairs "protocol" with
                | none => []
                | some (.scalar tag pv pline) =>
                    if tag = "!!str" then
                      if pv = "TCP" ∨ pv = "UDP" then []
                      else [ve file pline ("protocol has unsupported value \x27" ++ pv ++ "\x27")]
                    else [ve file pline "protocol must be string"]
                | some other => [ve file other.line "protocol must be string"])
       | other => [ve file other.line "ports must be object"])
        ++ portsLoop file rest

/-- Embeds validatePorts. -/
def validatePorts (file : String) (n : YamlNode) : List ValError :=
  match n with
  | .sequence elems _ => portsLoop file elems
  | other => [ve file other.line "ports must be array"]

/-- Embeds validateHTTPGet: required path string starting with a slash,
required bounded port. -/
def validateHTTPGet (file : String) (n : YamlNode) (field : String) : List ValError :=
  match n with
  | .mapping pairs _ =>
      (match lookupPairs pairs "path" with
       | none => [ve file 0 "path is required"]
       | some (.scalar tag pv pline) =>
          if tag = "!!str" then
            if goStartsWith pv "/" then []
            else [ve file pline ("path has invalid format \x27" ++ pv ++ "\x27")]
          else [ve file pline "path must be string"]
       | some other => [ve file other.line "path must be string"])
        ++ (match lookupPairs pairs "port" with
            | none => [ve file 0 "port is required"]
            | some port => validatePortInt file port "port")
  | other => [ve file other.line (field ++ " must be object")]

/-- Embeds validateProbe: a probe mapping with a required httpGet child. -/
def validateProbe (file : String) (n : YamlNode) (field : String) : List ValError :=
  match n with
  | .mapping pairs _ =>
      (match lookupPairs pairs "httpGet" with
       | none => [ve file 0 (field ++ ".httpGet is required")]
       | some hg => validateHTTPGet file hg (field ++ ".httpGet"))
  | other => [ve file other.line (field ++ " must be object")]

/-- Embeds validateResourceMap: optional integer cpu (tag not checked)
and optional memory matching the quantity grammar. -/
def validateResourceMap (file : String) (n : YamlNode) (field : String) : List ValError :=
  match n with
  | .mapping pairs _ =>
      (match lookupPairs pairs "cpu" with
       | none => []
       | some (.scalar _ cv cline) =>
          (match goAtoi (goTrimSpace cv) with
           | none => [ve file cline "cpu must be int"]
           | some _ => [])
       | some other => [ve file other.line "cpu must be int"])
        ++ (match lookupPairs pairs "memory" with
            | none => []
            | some (.scalar tag mv mline) =>
                if tag = "!!str" then
                  if validMemory mv then []
                  else [ve file mline ("memory has invalid format \x27" ++ mv ++ "\x27")]
                else [ve file mline "memory must be string"]
            | some other => [ve file other.line "memory must be string"])
  | other => [ve file other.line (field ++ " must be object")]

/-- Embeds validateResources: optional requests and limits sub-maps. -/
def validateResources (file : String) (n : YamlNode) : List ValError :=
  match n with
  | .mapping pairs _ =>
      (match lookupPairs pairs "requests" with
       | none => []
       | some req => validateResourceMap file req "resources.requests")
        ++ (match lookupPairs pairs "limits" with
            | none => []
            | some lim => validateResourceMap file lim "resources.limits")
  | other => [ve file other.line "resources must be object"]

/-- Name block of the containers loop body: returns the errors for the
name field together with the updated seen-names set.  Both a failed
format check and a duplicate produce the same invalid-format message,
and the name is recorded as seen in either case, exactly as in the
source loop. -/
def containerNameBlock (file : String) (idx : Nat) (seen : List String)
    (pairs : List (YamlNode × YamlNode)) : List ValError × List String :=
  match lookupPairs pairs "name" with
  | none => ([ve file 0 ("spec.containers[" ++ toString idx ++ "].name is required")], seen)
  | some (.scalar tag nv nline) =>
      if tag = "!!str" then
        ((if matchContainerName nv then []
          else [ve file nline ("containers.name has invalid format \x27" ++ nv ++ "\x27")])
          ++ (if seen.contains nv then
                [ve file nline ("containers.name has invalid format \x27" ++ nv ++ "\x27")]
              else []),
         nv :: seen)
      else ([ve file nline "containers.name must be string"], seen)
  | some other => ([ve file other.line "containers.name must be string"], seen)

/-- Image block of the containers loop body. -/
def containerImageBlock (file : String) (idx : Nat)
    (pairs : List (YamlNode × YamlNode)) : List ValError :=
  match lookupPairs pairs "image" with
  | none => [ve file 0 ("spec.containers[" ++ toString idx ++ "].image is required")]
  | some (.scalar tag iv iline) =>
      if tag = "!!str" then
        if validImage iv then []
        else [ve file iline ("containers.image has invalid format \x27" ++ iv ++ "\x27")]
      else [ve file iline "containers.image must be string"]
  | some other => [ve file other.line "containers.image must be string"]

/-- Remaining optional/required blocks of the containers loop body:
ports, the two probes and the required resources. -/
def containerRestBlock (file : String) (idx : Nat)
    (pairs : List (YamlNode × YamlNode)) : List ValError :=
  (match lookupPairs pairs "ports" with
   | none => []
   | some ports => validatePorts file ports)
    ++ (match lookupPairs pairs "readinessProbe" with
        | none => []
        | some rp => validateProbe file rp "readinessProbe")
    ++ (match lookupPairs pairs "livenessProbe" with
        | none => []
        | some lp => validateProbe file lp "livenessProbe")
    ++ (match lookupPairs pairs "resources" with
        | none => [ve file 0 ("spec.containers[" ++ toString idx ++ "].resources is required")]
        | some res => validateResources file res)

/-- Container entries loop of validateContainers, threading the element
index and the set of container names already seen. -/
def containersLoop (file : String) (idx : Nat) (seen : List String) :
    List YamlNode → List ValError
  | [] => []
  | c :: rest =>
      match c with
      | .mapping pairs _ =>
          (containerNameBlock file idx seen pairs).1
            ++ containerImageBlock file idx pairs ++ containerRestBlock file idx pairs
            ++ containersLoop file (idx + 1) (containerNameBlock file idx seen pairs).2 rest
      | other =>
          [ve file other.line ("spec.containers[" ++ toString idx ++ "] must be object")]
            ++ containersLoop file (idx + 1) seen rest

/-- Embeds validateContainers: non-empty sequence of container mappings. -/
def validateContainers (file : String) (n : YamlNode) : List ValError :=
  match n with
  | .sequence elems line =>
      match elems with
      | [] => [ve file line "spec.containers is required"]
      | _ => containersLoop file 0 [] elems
  | other => [ve file other.line "spec.containers must be array"]

/-- Embeds validatePodSpec: optional os, required containers. -/
def validatePodSpec (file : String) (n : YamlNode) : List ValError :=
  match n with
  | .mapping pairs _ =>
      (match lookupPairs pairs "os" with
       | none => []
       | some osNode => validatePodOS file osNode)
        ++ (match lookupPairs pairs "containers" with
            | none => [ve file 0 "spec.containers is required"]
            | some cs => validateContainers file cs)
  | other => [ve file other.line "spec must be object"]

/-- Embeds validatePod, the top-level entry point.  The Go function
first normalises the file name with filepath.Clean (standard-library
path cleaning, external to the validator); that affects only the File
field carried by the errors, never which errors arise, so the embedding
takes the already-cleaned name.  A nil root pointer is Option none. -/
def validatePod (file : String) (root : Option YamlNode) : List ValError :=
  match firstDocument root with
  | none => [{ file := file, line := 0, msg := "cannot unmarshal file content: empty document" }]
  | some doc =>
      match doc with
      | .mapping pairs _ =>
          (match lookupPairs pairs "apiVersion" with
           | none => [ve file 0 "apiVersion is required"]
           | some apiV => validateStringEquals file apiV "apiVersion" ["v1"])
            ++ (match lookupPairs pairs "kind" with
                | none => [ve file 0 "kind is required"]
                | some kind => validateStringEquals file kind "kind" ["Pod"])
            ++ (match lookupPairs pairs "metadata" with
                | none => [ve file 0 "metadata is required"]
                | some meta => validateObjectMeta file meta)
            ++ (match lookupPairs pairs "spec" with
                | none => [ve file 0 "spec is required"]
                | some spec => validatePodSpec file spec)
      | other => [ve file other.line "root must be object"]

/-- Discriminates mapping nodes, as the guard doc.Kind != yaml.MappingNode. -/
def isMappingNode : YamlNode → Bool
  | .mapping _ _ => true
  | _ => false

/-- A manifest that is valid except that metadata.name is an int scalar
on line 4: used to exhibit that the error of a present-but-invalid
node carries the source line of that node. -/
def metaNameIntDoc : YamlNode :=
  .document [.mapping [
    (.scalar "!!str" "apiVersion" 1, .scalar "!!str" "v1" 1),
    (.scalar "!!str" "kind" 2, .scalar "!!str" "Pod" 2),
    (.scalar "!!str" "metadata" 3, .mapping [(.scalar "!!str" "name" 4, .scalar "!!int" "5" 4)] 3),
    (.scalar "!!str" "spec" 5, .mapping [
      (.scalar "!!str" "containers" 6, .sequence [
        .mapping [
          (.scalar "!!str" "name" 7, .scalar "!!str" "web" 7),
          (.scalar "!!str" "image" 8, .scalar "!!str" "registry.bigbrother.io/app:v1" 8),
          (.scalar "!!str" "resources" 9, .mapping [] 9)] 7] 6)] 5)] 1] 0

/-- A manifest that is valid except that spec.containers is an empty
sequence placed on line 7. -/
def emptyContainersDoc : YamlNode :=
  .document [.mapping [
    (.scalar "!!str" "apiVersion" 1, .scalar "!!str" "v1" 1),
    (.scalar "!!str" "kind" 2, .scalar "!!str" "Pod" 2),
    (.scalar "!!str" "metadata" 3, .mapping [(.scalar "!!str" "name" 4, .scalar "!!str" "x" 4)] 3),
    (.scalar "!!str" "spec" 5, .mapping [
      (.scalar "!!str" "containers" 6, .sequence [] 7)] 5)] 1] 0

/-- The exact example manifest of the spec: apiVersion v1, kind Pod,
metadata.name x, one container named c1 with a well-formed registry
image and empty resources. -/
def exampleManifest : YamlNode :=
  .document [.mapping [
    (.scalar "!!str" "apiVersion" 1, .scalar "!!str" "v1" 1),
    (.scalar "!!str" "kind" 2, .scalar "!!str" "Pod" 2),
    (.scalar "!!str" "metadata" 3, .mapping [(.scalar "!!str" "name" 4, .scalar "!!str" "x" 4)] 3),
    (.scalar "!!str" "spec" 5, .mapping [
      (.scalar "!!str" "containers" 6, .sequence [
        .mapping [
          (.scalar "!!str" "name" 7, .scalar "!!str" "c1" 7),
          (.scalar "!!str" "image" 8, .scalar "!!str" "registry.bigbrother.io/app:v1" 8),
          (.scalar "!!str" "resources" 9, .mapping [] 9)] 7] 6)] 5)] 1] 0

/-- A containers array with two otherwise-valid containers both named
web, the first name node on line 11 and the second on line 21. -/
def twoWebContainers : YamlNode :=
  .sequence [
    .mapping [
      (.scalar "!!str" "name" 11, .scalar "!!str" "web" 11),
      (.scalar "!!str" "image" 12, .scalar "!!str" "registry.bigbrother.io/app:v1" 12),
      (.scalar "!!str" "resources" 13, .mapping [] 13)] 11,
    .mapping [
      (.scalar "!!str" "name" 21, .scalar "!!str" "web" 21),
      (.scalar "!!str" "image" 22, .scalar "!!str" "registry.bigbrother.io/app:v2" 22),
      (.scalar "!!str" "resources" 23, .mapping [] 23)] 21] 10

/-- An otherwise-valid manifest with spec.os given as the scalar string
solaris on line 8. -/
def solarisDoc : YamlNode :=
  .document [.mapping [
    (.scalar "!!str" "apiVersion" 1, .scalar "!!str" "v1" 1),
    (.scalar "!!str" "kind" 2, .scalar "!!str" "Pod" 2),
    (.scalar "!!str" "metadata" 3, .mapping [(.scalar "!!str" "name" 4, .scalar "!!str" "x" 4)] 3),
    (.scalar "!!str" "spec" 5, .mapping [
      (.scalar "!!str" "os" 8, .scalar "!!str" "solaris" 8),
      (.scalar "!!str" "containers" 6, .sequence [
        .mapping [
          (.scalar "!!str" "name" 7, .scalar "!!str" "web" 7),
          (.scalar "!!str" "image" 9, .scalar "!!str" "registry.bigbrother.io/app:v1" 9),
          (.scalar "!!str" "resources" 10, .mapping [] 10)] 7] 6)] 5)] 1] 0

/-- A manifest wrong in every field: apiVersion v2, kind Deployment, an
int metadata.name, two int label keys on the same line, os solaris and
a scalar containers value.  The two label-key errors are identical
records, so the expected output also witnesses that the collected list
is not deduplicated. -/
def orderDoc : YamlNode :=
  .document [.mapping [
    (.scalar "!!str" "apiVersion" 1, .scalar "!!str" "v2" 1),
    (.scalar "!!str" "kind" 2, .scalar "!!str" "Deployment" 2),
    (.scalar "!!str" "metadata" 3, .mapping [
      (.scalar "!!str" "name" 4, .scalar "!!int" "5" 4),
      (.scalar "!!str" "labels" 5, .mapping [
        (.scalar "!!int" "1" 6, .scalar "!!str" "a" 6),
        (.scalar "!!int" "2" 6, .scalar "!!str" "b" 6)] 5)] 3),
    (.scalar "!!str" "spec" 7, .mapping [
      (.scalar "!!str" "os" 8, .scalar "!!str" "solaris" 8),
      (.scalar "!!str" "containers" 9, .scalar "!!str" "x" 9)] 7)] 1] 0

/-- The image grammar stated positionally: registry prefix, and the
last colon lies strictly after every slash and is not the final
character. -/
def imageTagSpec (s : String) : Prop :=
  goStartsWith s "registry.bigbrother.io/" = true ∧
  ∃ i, s.data.get? i = some ':' ∧ i + 1 < s.data.length ∧
    (∀ j, s.data.get? j = some '/' → j < i) ∧
    (∀ j, s.data.get? j = some ':' → j ≤ i)

/-- The literal reading the claim gives of the image grammar: prefix, and
some colon after the last slash that is not the final character. -/
def imageClaimLiteral (s : String) : Prop :=
  goStartsWith s "registry.bigbrother.io/" = true ∧
  ∃ i, s.data.get? i = some ':' ∧ i + 1 < s.data.length ∧
    ∀ j, s.data.get? j = some '/' → j < i

/-- An otherwise-valid manifest whose container image is the malformed
string badimage on line 8. -/
def badImageDoc : YamlNode :=
  .document [.mapping [
    (.scalar "!!str" "apiVersion" 1, .scalar "!!str" "v1" 1),
    (.scalar "!!str" "kind" 2, .scalar "!!str" "Pod" 2),
    (.scalar "!!str" "metadata" 3, .mapping [(.scalar "!!str" "name" 4, .scalar "!!str" "x" 4)] 3),
    (.scalar "!!str" "spec" 5, .mapping [
      (.scalar "!!str" "containers" 6, .sequence [
        .mapping [
          (.scalar "!!str" "name" 7, .scalar "!!str" "web" 7),
          (.scalar "!!str" "image" 8, .scalar "!!str" "badimage" 8),
          (.scalar "!!str" "resources" 9, .mapping [] 9)] 7] 6)] 5)] 1] 0

/-- Shared shape of the two behaviours the membership lemmas below track
for every error a sub-validator can emit: the message is never the
top-level "kind is required" message, and any missing-field message is
carried with line 0, except the empty-containers reuse of the
"spec.containers is required" message. -/
def tameErr (e : ValError) : Prop :=
  e.msg ≠ "kind is required" ∧
  ((∃ f, e.msg = f ++ " is required") → e.line = 0 ∨ e.msg = "spec.containers is required")

/-- Line discipline of missing-field errors, the part of tameErr that
also holds for the kind block itself. -/
def reqLineZero (e : ValError) : Prop :=
  (∃ f, e.msg = f ++ " is required") → e.line = 0 ∨ e.msg = "spec.containers is required"

/-!
String facts used to separate the fixed error messages from each other:
messages are compared by their first character, their last character or
their length, which keeps the lemmas valid when a message embeds an
arbitrary user value.
-/

theorem str_data_append (a b : String) : (a ++ b).data = a.data ++ b.data := rfl

theorem ne_of_data_ne {s t : String} (h : s.data ≠ t.data) : s ≠ t :=
  fun he => h (he ▸ rfl)

theorem getLast_append_str (f lit : String) (h : lit.data ≠ []) :
    (f ++ lit).data.getLast? = lit.data.getLast? := by
  rw [str_data_append, List.getLast?_append_of_ne_nil _ h]

theorem head_append_str (lit rest : String) (h : lit.data ≠ []) :
    (lit ++ rest).data.head? = lit.data.head? := by
  rw [str_data_append]
  cases hd : lit.data with
  | nil => exact absurd hd h
  | cons x xs => rfl

theorem head_append_append (lit a b : String) (h : lit.data ≠ []) :
    ((lit ++ a) ++ b).data.head? = lit.data.head? := by
  rw [head_append_str, head_append_str _ _ h]
  rw [str_data_append]
  exact fun hx => h (List.append_eq_nil.mp hx).1

theorem ne_of_getLast_ne {s t : String} (h : s.data.getLast? ≠ t.data.getLast?) :
    s ≠ t := fun he => h (he ▸ rfl)

theorem ne_of_head_ne {s t : String} (h : s.data.head? ≠ t.data.head?) :
    s ≠ t := fun he => h (he ▸ rfl)

theorem ne_of_length_lt {s t : String} (h : t.data.length < s.data.length) : s ≠ t := by
  intro he; subst he; omega

theorem endsRequired_getLast {m : String} (h : ∃ f, m = f ++ " is required") :
    m.data.getLast? = some 'd' := by
  obtain ⟨f, rfl⟩ := h
  rw [getLast_append_str _ _ (by decide)]
  decide

theorem tame_of_getLast {fi : String} {l : Nat} {m : String}
    (hm : m.data.getLast? ≠ some 'd') : tameErr (ve fi l m) := by
  refine ⟨fun he => ?_, fun h => absurd (endsRequired_getLast h) hm⟩
  rw [show (ve fi l m).msg = m from rfl] at he
  subst he
  exact hm (by decide)

theorem tame_required {fi : String} {m : String}
    (hne : m ≠ "kind is required") : tameErr (ve fi 0 m) :=
  ⟨hne, fun _ => Or.inl rfl⟩

theorem tame_containersRequired {fi : String} {l : Nat} :
    tameErr (ve fi l "spec.containers is required") :=
  ⟨by show ("spec.containers is required" : String) ≠ "kind is required"; decide,
   fun _ => Or.inr rfl⟩

theorem all_singleton {P : ValError → Prop} {e' : ValError} (h : P e') :
    ∀ e ∈ [e'], P e := by
  intro e he; rw [List.mem_singleton] at he; subst he; exact h

theorem all_append {P : ValError → Prop} {l₁ l₂ : List ValError}
    (h₁ : ∀ e ∈ l₁, P e) (h₂ : ∀ e ∈ l₂, P e) : ∀ e ∈ l₁ ++ l₂, P e := by
  intro e he; rw [List.mem_append] at he
  rcases he with he | he
  · exact h₁ e he
  · exact h₂ e he

theorem all_nil {P : ValError → Prop} : ∀ e ∈ ([] : List ValError), P e := by
  intro e he; cases he

theorem tame_validateScalarType (fi : String) (n : YamlNode) (field : String) :
    ∀ e ∈ validateScalarType fi n field "string", tameErr e := by
  unfold validateScalarType
  split
  · split
    · exact all_nil
    · exact all_singleton (tame_of_getLast (by rw [getLast_append_str _ _ (by decide)]; decide))
  · exact all_singleton (tame_of_getLast (by rw [getLast_append_str _ _ (by decide)]; decide))

theorem tame_validateStringEquals (fi : String) (n : YamlNode) (field : String)
    (allowed : List String) :
    ∀ e ∈ validateStringEquals fi n field allowed, tameErr e := by
  unfold validateStringEquals
  split
  · split
    · split
      · exact all_nil
      · exact all_singleton (tame_of_getLast (by rw [getLast_append_str _ _ (by decide)]; decide))
    · exact all_singleton (tame_of_getLast (by rw [getLast_append_str _ _ (by decide)]; decide))
  · exact all_singleton (tame_of_getLast (by rw [getLast_append_str _ _ (by decide)]; decide))

theorem tame_validatePortInt (fi : String) (n : YamlNode) (field : String) :
    ∀ e ∈ validatePortInt fi n field, tameErr e := by
  unfold validatePortInt
  split
  · split
    · exact all_singleton (tame_of_getLast (by rw [getLast_append_str _ _ (by decide)]; decide))
    · split
      · exact all_singleton (tame_of_getLast (by rw [getLast_append_str _ _ (by decide)]; decide))
      · exact all_nil
  · exact all_singleton (tame_of_getLast (by rw [getLast_append_str _ _ (by decide)]; decide))

theorem tame_validatePodOS (fi : String) (n : YamlNode) :
    ∀ e ∈ validatePodOS fi n, tameErr e := by
  unfold validatePodOS
  split
  · split
    · split
      · exact all_nil
      · exact all_singleton (tame_of_getLast (by rw [getLast_append_str _ _ (by decide)]; decide))
    · exact all_singleton (tame_of_getLast (by decide))
  · split
    · exact all_singleton (tame_required (by decide))
    · split
      · split
        · exact all_nil
        · exact all_singleton (tame_of_getLast (by rw [getLast_append_str _ _ (by decide)]; decide))
      · exact all_singleton (tame_of_getLast (by decide))
    · exact all_singleton (tame_of_getLast (by decide))
  · exact all_singleton (tame_of_getLast (by decide))

theorem tame_validateLabelPairs (fi : String) (ps : List (YamlNode × YamlNode)) :
    ∀ e ∈ validateLabelPairs fi ps, tameErr e := by
  induction ps with
  | nil => exact all_nil
  | cons kv rest ih =>
    obtain ⟨k, v⟩ := kv
    unfold validateLabelPairs
    refine all_append (all_append ?_ ?_) ih
    · split
      · exact all_nil
      · exact all_singleton (tame_of_getLast (by decide))
    · split
      · exact all_nil
      · exact all_singleton (tame_of_getLast (by decide))

theorem tame_validateObjectMeta (fi : String) (n : YamlNode) :
    ∀ e ∈ validateObjectMeta fi n, tameErr e := by
  unfold validateObjectMeta
  split
  · refine all_append (all_append ?_ ?_) ?_
    · split
      · exact all_singleton (tame_required (by decide))
      · exact tame_validateScalarType _ _ _
    · split
      · exact all_nil
      · exact tame_validateScalarType _ _ _
    · split
      · exact all_nil
      · exact tame_validateLabelPairs _ _
      · exact all_singleton (tame_of_getLast (by decide))
  · exact all_singleton (tame_of_getLast (by decide))

theorem tame_portsLoop (fi : String) (ps : List YamlNode) :
    ∀ e ∈ portsLoop fi ps, tameErr e := by
  induction ps with
  | nil => exact all_nil
  | cons p rest ih =>
    unfold portsLoop
    refine all_append ?_ ih
    split
    · refine all_append ?_ ?_
      · split
        · exact all_singleton (tame_required (by decide))
        · exact tame_validatePortInt _ _ _
      · split
        · exact all_nil
        · split
          · split
            · exact all_nil
            · exact all_singleton (tame_of_getLast (by rw [getLast_append_str _ _ (by decide)]; decide))
          · exact all_singleton (tame_of_getLast (by decide))
        · exact all_singleton (tame_of_getLast (by decide))
    · exact all_singleton (tame_of_getLast (by decide))

theorem tame_validatePorts (fi : String) (n : YamlNode) :
    ∀ e ∈ validatePorts fi n, tameErr e := by
  unfold validatePorts
  split
  · exact tame_portsLoop _ _
  · exact all_singleton (tame_of_getLast (by decide))

theorem tame_validateHTTPGet (fi : String) (n : YamlNode) (field : String) :
    ∀ e ∈ validateHTTPGet fi n field, tameErr e := by
  unfold validateHTTPGet
  split
  · refine all_append ?_ ?_
    · split
      · exact all_singleton (tame_required (by decide))
      · split
        · split
          · exact all_nil
          · exact all_singleton (tame_of_getLast (by rw [getLast_append_str _ _ (by decide)]; decide))
        · exact all_singleton (tame_of_getLast (by decide))
      · exact all_singleton (tame_of_getLast (by decide))
    · split
      · exact all_singleton (tame_required (by decide))
      · exact tame_validatePortInt _ _ _
  · exact all_singleton (tame_of_getLast (by rw [getLast_append_str _ _ (by decide)]; decide))

theorem tame_validateProbe (fi : String) (n : YamlNode) (field : String) :
    ∀ e ∈ validateProbe fi n field, tameErr e := by
  unfold validateProbe
  split
  · split
    · refine all_singleton (tame_required (ne_of_length_lt ?_))
      rw [str_data_append]
      simp only [List.length_append, List.length_cons, List.length_nil]
      omega
    · exact tame_validateHTTPGet _ _ _
  · exact all_singleton (tame_of_getLast (by rw [getLast_append_str _ _ (by decide)]; decide))

theorem tame_validateResourceMap (fi : String) (n : YamlNode) (field : String) :
    ∀ e ∈ validateResourceMap fi n field, tameErr e := by
  unfold validateResourceMap
  split
  · refine all_append ?_ ?_
    · split
      · exact all_nil
      · split
        · exact all_singleton (tame_of_getLast (by decide))
        · exact all_nil
      · exact all_singleton (tame_of_getLast (by decide))
    · split
      · exact all_nil
      · split
        · split
          · exact all_nil
          · exact all_singleton (tame_of_getLast (by rw [getLast_append_str _ _ (by decide)]; decide))
        · exact all_singleton (tame_of_getLast (by decide))
      · exact all_singleton (tame_of_getLast (by decide))
  · exact all_singleton (tame_of_getLast (by rw [getLast_append_str _ _ (by decide)]; decide))

theorem tame_validateResources (fi : String) (n : YamlNode) :
    ∀ e ∈ validateResources fi n, tameErr e := by
  unfold validateResources
  split
  · refine all_append ?_ ?_
    · split
      · exact all_nil
      · exact tame_validateResourceMap _ _ _
    · split
      · exact all_nil
      · exact tame_validateResourceMap _ _ _
  · exact all_singleton (tame_of_getLast (by decide))

theorem tame_containerNameBlock (fi : String) (idx : Nat) (seen : List String)
    (pairs : List (YamlNode × YamlNode)) :
    ∀ e ∈ (containerNameBlock fi idx seen pairs).1, tameErr e := by
  unfold containerNameBlock
  split
  · exact all_singleton (tame_required (ne_of_head_ne
      (by rw [head_append_append _ _ _ (by decide)]; decide)))
  · split
    · refine all_append ?_ ?_
      · split
        · exact all_nil
        · exact all_singleton (tame_of_getLast (by rw [getLast_append_str _ _ (by decide)]; decide))
      · split
        · exact all_singleton (tame_of_getLast (by rw [getLast_append_str _ _ (by decide)]; decide))
        · exact all_nil
    · exact all_singleton (tame_of_getLast (by decide))
  · exact all_singleton (tame_of_getLast (by decide))

theorem tame_containerImageBlock (fi : String) (idx : Nat)
    (pairs : List (YamlNode × YamlNode)) :
    ∀ e ∈ containerImageBlock fi idx pairs, tameErr e := by
  unfold containerImageBlock
  split
  · exact all_singleton (tame_required (ne_of_head_ne
      (by rw [head_append_append _ _ _ (by decide)]; decide)))
  · split
    · split
      · exact all_nil
      · exact all_singleton (tame_of_getLast (by rw [getLast_append_str _ _ (by decide)]; decide))
    · exact all_singleton (tame_of_getLast (by decide))
  · exact all_singleton (tame_of_getLast (by decide))

theorem tame_containerRestBlock (fi : String) (idx : Nat)
    (pairs : List (YamlNode × YamlNode)) :
    ∀ e ∈ containerRestBlock fi idx pairs, tameErr e := by
  unfold containerRestBlock
  refine all_append (all_append (all_append ?_ ?_) ?_) ?_
  · split
    · exact all_nil
    · exact tame_validatePorts _ _
  · split
    · exact all_nil
    · exact tame_validateProbe _ _ _
  · split
    · exact all_nil
    · exact tame_validateProbe _ _ _
  · split
    · exact all_singleton (tame_required (ne_of_head_ne
        (by rw [head_append_append _ _ _ (by decide)]; decide)))
    · exact tame_validateResources _ _

theorem tame_containersLoop (fi : String) (cs : List YamlNode) :
    ∀ (idx : Nat) (seen : List String), ∀ e ∈ containersLoop fi idx seen cs, tameErr e := by
  induction cs with
  | nil => intro idx seen; exact all_nil
  | cons c rest ih =>
    intro idx seen
    unfold containersLoop
    split
    · refine all_append (all_append (all_append ?_ ?_) ?_) ?_
      · exact tame_containerNameBlock _ _ _ _
      · exact tame_containerImageBlock _ _ _
      · exact tame_containerRestBlock _ _ _
      · exact ih _ _
    · refine all_append ?_ (ih _ _)
      exact all_singleton (tame_of_getLast (by rw [getLast_append_str _ _ (by decide)]; decide))

theorem tame_validateContainers (fi : String) (n : YamlNode) :
    ∀ e ∈ validateContainers fi n, tameErr e := by
  unfold validateContainers
  split
  · split
    · exact all_singleton tame_containersRequired
    · exact tame_containersLoop _ _ _ _
  · exact all_singleton (tame_of_getLast (by decide))

theorem tame_validatePodSpec (fi : String) (n : YamlNode) :
    ∀ e ∈ validatePodSpec fi n, tameErr e := by
  unfold validatePodSpec
  split
  · refine all_append ?_ ?_
    · split
      · exact all_nil
      · exact tame_validatePodOS _ _
    · split
      · exact all_singleton (tame_required (by decide))
      · exact tame_validateContainers _ _
  · exact all_singleton (tame_of_getLast (by decide))

/-- Every error of the apiVersion block of validatePod is tame. -/
theorem tame_blk_api (fi : String) (x : Option YamlNode) :
    ∀ e ∈ (match x with
           | none => [ve fi 0 "apiVersion is required"]
           | some apiV => validateStringEquals fi apiV "apiVersion" ["v1"]), tameErr e := by
  split
  · exact all_singleton (tame_required (by decide))
  · exact tame_validateStringEquals _ _ _ _

/-- Every error of the metadata block of validatePod is tame. -/
theorem tame_blk_meta (fi : String) (x : Option YamlNode) :
    ∀ e ∈ (match x with
           | none => [ve fi 0 "metadata is required"]
           | some meta => validateObjectMeta fi meta), tameErr e := by
  split
  · exact all_singleton (tame_required (by decide))
  · exact tame_validateObjectMeta _ _

/-- Every error of the spec block of validatePod is tame. -/
theorem tame_blk_spec (fi : String) (x : Option YamlNode) :
    ∀ e ∈ (match x with
           | none => [ve fi 0 "spec is required"]
           | some spec => validatePodSpec fi spec), tameErr e := by
  split
  · exact all_singleton (tame_required (by decide))
  · exact tame_validatePodSpec _ _

/-- The kind block of validatePod obeys the line discipline. -/
theorem reqZero_blk_kind (fi : String) (x : Option YamlNode) :
    ∀ e ∈ (match x with
           | none => [ve fi 0 "kind is required"]
           | some kind => validateStringEquals fi kind "kind" ["Pod"]), reqLineZero e := by
  split
  · exact all_singleton (fun _ => Or.inl rfl)
  · exact fun e he => (tame_validateStringEquals _ _ _ _ e he).2

/-- On a root resolving to a mapping, validatePod is exactly the ordered
concatenation of the four per-field blocks. -/
theorem validatePod_eq_blocks (fi : String) (root : Option YamlNode)
    (pairs : List (YamlNode × YamlNode)) (l : Nat)
    (hdoc : firstDocument root = some (.mapping pairs l)) :
    validatePod fi root =
      (match lookupPairs pairs "apiVersion" with
       | none => [ve fi 0 "apiVersion is required"]
       | some apiV => validateStringEquals fi apiV "apiVersion" ["v1"])
      ++ (match lookupPairs pairs "kind" with
          | none => [ve fi 0 "kind is required"]
          | some kind => validateStringEquals fi kind "kind" ["Pod"])
      ++ (match lookupPairs pairs "metadata" with
          | none => [ve fi 0 "metadata is required"]
          | some meta => validateObjectMeta fi meta)
      ++ (match lookupPairs pairs "spec" with
          | none => [ve fi 0 "spec is required"]
          | some spec => validatePodSpec fi spec) := by
  unfold validatePod
  rw [hdoc]

/-- Every error of validatePod obeys the line discipline. -/
theorem reqZero_validatePod (fi : String) (root : Option YamlNode) :
    ∀ e ∈ validatePod fi root, reqLineZero e := by
  unfold validatePod
  split
  · exact all_singleton (fun _ => Or.inl rfl)
  · split
    · refine all_append (all_append (all_append ?_ ?_) ?_) ?_
      · exact fun e he => (tame_blk_api _ _ e he).2
      · exact reqZero_blk_kind _ _
      · exact fun e he => (tame_blk_meta _ _ e he).2
      · exact fun e he => (tame_blk_spec _ _ e he).2
    · exact all_singleton (fun hf => absurd (endsRequired_getLast hf)
        (by show ¬ ("root must be object" : String).data.getLast? = some 'd'; decide))

/-- Tame error lists contain no occurrence of the kind-required message. -/
theorem countP_kind_zero {lst : List ValError} (h : ∀ e ∈ lst, tameErr e) :
    lst.countP (fun e => decide (e.msg = "kind is required")) = 0 :=
  List.countP_eq_zero.mpr (fun e he => by simpa using (h e he).1)

/-- C4: for every manifest whose root resolves to a mapping with no
top-level kind key, the error sequence holds exactly one error whose
message is "kind is required", whatever else is wrong with the manifest;
the validator is a total Lean function, so every such run completes. -/
theorem validatePod_missing_kind_exactly_one (file : String) (root : Option YamlNode)
    (pairs : List (YamlNode × YamlNode)) (l : Nat)
    (hdoc : firstDocument root = some (.mapping pairs l))
    (hkind : lookupPairs pairs "kind" = none) :
    (validatePod file root).countP (fun e => decide (e.msg = "kind is required")) = 1 := by
  rw [validatePod_eq_blocks file root pairs l hdoc]
  simp only [hkind]
  rw [List.countP_append, List.countP_append, List.countP_append]
  rw [countP_kind_zero (tame_blk_api file (lookupPairs pairs "apiVersion")),
      countP_kind_zero (tame_blk_meta file (lookupPairs pairs "metadata")),
      countP_kind_zero (tame_blk_spec file (lookupPairs pairs "spec"))]
  rfl

/-- Witness for C4 at the empty root mapping. -/
theorem validatePod_missing_kind_exactly_one_witness :
    (validatePod "pod.yaml" (some (.document [.mapping [] 3] 0))).countP
      (fun e => decide (e.msg = "kind is required")) = 1 :=
  validatePod_missing_kind_exactly_one "pod.yaml" _ [] 3 rfl rfl

/-- C10 (amended): every missing-field error (message of the shape
field-name followed by " is required") carries line 0, except that a
present but empty containers array reuses the "spec.containers is
required" message carrying the own line of the array node; and an
error for a present-but-invalid node carries its source line, exhibited at
the int-valued metadata.name of line 4. -/
theorem required_errors_line_zero (file : String) (root : Option YamlNode) (e : ValError)
    (he : e ∈ validatePod file root) (hf : ∃ f, e.msg = f ++ " is required") :
    (e.line = 0 ∨ e.msg = "spec.containers is required") ∧
      validatePod "pod.yaml" (some metaNameIntDoc) =
        [ve "pod.yaml" 4 "metadata.name must be string"] :=
  ⟨reqZero_validatePod file root e he hf, by decide⟩

/-- Witness for C10 at a manifest missing apiVersion. -/
theorem required_errors_line_zero_witness :
    ((ve "pod.yaml" 0 "apiVersion is required").line = 0 ∨
      (ve "pod.yaml" 0 "apiVersion is required").msg = "spec.containers is required") ∧
      validatePod "pod.yaml" (some metaNameIntDoc) =
        [ve "pod.yaml" 4 "metadata.name must be string"] :=
  required_errors_line_zero "pod.yaml" (some (.document [.mapping [] 3] 0))
    (ve "pod.yaml" 0 "apiVersion is required") (by decide) ⟨"apiVersion", rfl⟩

/-- C10 counterexample: the claim as stated fails on the code, because
the empty containers array of line 7 produces a missing-field message
that carries line 7, not line 0. -/
theorem required_error_nonzero_line :
    validatePod "pod.yaml" (some emptyContainersDoc) =
      [ve "pod.yaml" 7 "spec.containers is required"] ∧
    (∃ f, ("spec.containers is required" : String) = f ++ " is required") ∧
    (7 : Nat) ≠ 0 :=
  ⟨by decide, ⟨"spec.containers", rfl⟩, by decide⟩

/-- C7: exactly two conditions short-circuit a run to a single-error
result: no resolvable top-level node gives the single empty-document
error, and a non-mapping top-level node gives the single
root-must-be-object error; any root that resolves to a mapping instead
runs all four field blocks independently and concatenates their errors. -/
theorem validatePod_short_circuit :
    (∀ (fi : String) (root : Option YamlNode), firstDocument root = none →
      validatePod fi root =
        [{ file := fi, line := 0, msg := "cannot unmarshal file content: empty document" }]) ∧
    (∀ (fi : String) (root : Option YamlNode) (n : YamlNode),
      firstDocument root = some n → isMappingNode n = false →
      validatePod fi root = [ve fi n.line "root must be object"]) ∧
    (∀ (fi : String) (root : Option YamlNode) (pairs : List (YamlNode × YamlNode)) (l : Nat),
      firstDocument root = some (.mapping pairs l) →
      validatePod fi root =
        (match lookupPairs pairs "apiVersion" with
         | none => [ve fi 0 "apiVersion is required"]
         | some apiV => validateStringEquals fi apiV "apiVersion" ["v1"])
        ++ (match lookupPairs pairs "kind" with
            | none => [ve fi 0 "kind is required"]
            | some kind => validateStringEquals fi kind "kind" ["Pod"])
        ++ (match lookupPairs pairs "metadata" with
            | none => [ve fi 0 "metadata is required"]
            | some meta => validateObjectMeta fi meta)
        ++ (match lookupPairs pairs "spec" with
            | none => [ve fi 0 "spec is required"]
            | some spec => validatePodSpec fi spec)) := by
  refine ⟨?_, ?_, ?_⟩
  · intro fi root h
    unfold validatePod
    rw [h]
  · intro fi root n h hm
    unfold validatePod
    rw [h]
    cases n with
    | mapping ps l => simp [isMappingNode] at hm
    | scalar t v l => rfl
    | sequence es l => rfl
    | document cs l => rfl
  · exact fun fi root pairs l h => validatePod_eq_blocks fi root pairs l h

/-- Witness for C7: an empty root, a scalar document and an empty root
mapping. -/
theorem validatePod_short_circuit_witness :
    validatePod "f" none =
      [{ file := "f", line := 0, msg := "cannot unmarshal file content: empty document" }] ∧
    validatePod "f" (some (.document [.scalar "!!str" "hi" 2] 1)) =
      [ve "f" 2 "root must be object"] ∧
    validatePod "f" (some (.document [.mapping [] 1] 1)) =
      [ve "f" 0 "apiVersion is required"] ++ [ve "f" 0 "kind is required"]
        ++ [ve "f" 0 "metadata is required"] ++ [ve "f" 0 "spec is required"] :=
  ⟨validatePod_short_circuit.1 "f" none rfl,
   validatePod_short_circuit.2.1 "f" (some (.document [.scalar "!!str" "hi" 2] 1))
     (.scalar "!!str" "hi" 2) rfl rfl,
   (validatePod_short_circuit.2.2 "f" (some (.document [.mapping [] 1] 1)) [] 1 rfl).trans rfl⟩

/-- C3: whenever the trimmed scalar text of a port node parses as an
integer v, the port check accepts exactly the range 0 < v < 65536 and
otherwise reports value out of range; at the boundary, 0 and 65536 are
rejected while 1 and 65535 are accepted, for containerPort and for the
httpGet port field alike. -/
theorem validatePortInt_range (file tag field s : String) (line : Nat) (v : Int)
    (h : goAtoi (goTrimSpace s) = some v) :
    validatePortInt file (.scalar tag s line) field =
      (if 0 < v ∧ v < 65536 then []
       else [ve file line (field ++ " value out of range")]) ∧
    validatePortInt "pod.yaml" (.scalar "!!int" "0" 11) "containerPort" =
      [ve "pod.yaml" 11 "containerPort value out of range"] ∧
    validatePortInt "pod.yaml" (.scalar "!!int" "65536" 12) "containerPort" =
      [ve "pod.yaml" 12 "containerPort value out of range"] ∧
    validatePortInt "pod.yaml" (.scalar "!!int" "1" 13) "containerPort" = [] ∧
    validatePortInt "pod.yaml" (.scalar "!!int" "65535" 14) "containerPort" = [] ∧
    validatePortInt "pod.yaml" (.scalar "!!int" "0" 16) "port" =
      [ve "pod.yaml" 16 "port value out of range"] ∧
    validatePortInt "pod.yaml" (.scalar "!!int" "65535" 17) "port" = [] := by
  refine ⟨?_, by decide, by decide, by decide, by decide, by decide, by decide⟩
  unfold validatePortInt
  simp only [h]
  by_cases hc : 0 < v ∧ v < 65536
  · rw [if_neg (show ¬(v ≤ 0 ∨ 65536 ≤ v) by omega), if_pos hc]
  · rw [if_pos (show v ≤ 0 ∨ 65536 ≤ v by omega), if_neg hc]

/-- Witness for C3 at the out-of-range text 70000. -/
theorem validatePortInt_range_witness :
    validatePortInt "f" (.scalar "!!int" "70000" 9) "containerPort" =
      [ve "f" 9 "containerPort value out of range"] ∧
    validatePortInt "pod.yaml" (.scalar "!!int" "0" 11) "containerPort" =
      [ve "pod.yaml" 11 "containerPort value out of range"] ∧
    validatePortInt "pod.yaml" (.scalar "!!int" "65536" 12) "containerPort" =
      [ve "pod.yaml" 12 "containerPort value out of range"] ∧
    validatePortInt "pod.yaml" (.scalar "!!int" "1" 13) "containerPort" = [] ∧
    validatePortInt "pod.yaml" (.scalar "!!int" "65535" 14) "containerPort" = [] ∧
    validatePortInt "pod.yaml" (.scalar "!!int" "0" 16) "port" =
      [ve "pod.yaml" 16 "port value out of range"] ∧
    validatePortInt "pod.yaml" (.scalar "!!int" "65535" 17) "port" = [] :=
  validatePortInt_range "f" "!!int" "containerPort" "70000" 9 70000 (by decide)

/-- C9: the port check never looks at the scalar tag: it accepts exactly
the scalar nodes whose trimmed text parses as an integer strictly
between 0 and 65536, so the quoted string "80" passes despite carrying
the string tag. -/
theorem validatePortInt_ignores_tag :
    (∀ (file field : String) (n : YamlNode), validatePortInt file n field = [] ↔
      ∃ tag s line v, n = YamlNode.scalar tag s line ∧
        goAtoi (goTrimSpace s) = some v ∧ 0 < v ∧ v < 65536) ∧
    validatePortInt "pod.yaml" (.scalar "!!str" "80" 3) "containerPort" = [] := by
  refine ⟨?_, by decide⟩
  intro file field n
  constructor
  · intro h
    cases n with
    | scalar tag s line =>
      cases hm : goAtoi (goTrimSpace s) with
      | none => simp [validatePortInt, hm] at h
      | some i =>
        simp only [validatePortInt, hm] at h
        have hrange : ¬(i ≤ 0 ∨ 65536 ≤ i) := by
          intro hc
          rw [if_pos hc] at h
          simp at h
        exact ⟨tag, s, line, i, rfl, hm, by omega, by omega⟩
    | mapping ps l => simp [validatePortInt] at h
    | sequence es l => simp [validatePortInt] at h
    | document cs l => simp [validatePortInt] at h
  · rintro ⟨tag, s, line, v, rfl, hm, h1, h2⟩
    simp only [validatePortInt, hm]
    rw [if_neg (show ¬(v ≤ 0 ∨ 65536 ≤ v) by omega)]

/-- C1 (amended): validating the example manifest returns exactly one
error, the invalid-format report for the container name c1, which the
name grammar rejects because a digit may only appear in an
underscore-separated group. -/
theorem validatePod_exampleManifest_c1_error :
    validatePod "pod.yaml" (some exampleManifest) =
      [ve "pod.yaml" 7 "containers.name has invalid format \x27c1\x27"] := by
  decide

/-- C1 counterexample: the error sequence for the example manifest is
not empty, contradicting the claim as stated. -/
theorem validatePod_exampleManifest_not_empty :
    validatePod "pod.yaml" (some exampleManifest) ≠ [] := by
  decide

/-- C2: two containers both named web produce exactly one error, the
invalid-format message attached to the second occurrence (line 21); the
first occurrence contributes nothing. -/
theorem validateContainers_duplicate_web_second_only :
    validateContainers "pod.yaml" twoWebContainers =
      [ve "pod.yaml" 21 "containers.name has invalid format \x27web\x27"] := by
  decide

/-- C6: the os field accepts both the scalar string form and the mapping
form with a name key; in each form the trimmed resolved name must be
exactly linux or windows, any other value producing the single
unsupported-value error quoting the raw value; in particular the scalar
solaris in an otherwise-valid manifest yields exactly that one error. -/
theorem validatePodOS_enum :
    (∀ (file v : String) (line : Nat),
      validatePodOS file (.scalar "!!str" v line) =
        if goTrimSpace v = "linux" ∨ goTrimSpace v = "windows" then []
        else [ve file line ("os has unsupported value \x27" ++ v ++ "\x27")]) ∧
    (∀ (file ktag : String) (kline : Nat) (nv : String) (nline : Nat)
        (rest : List (YamlNode × YamlNode)) (l : Nat),
      validatePodOS file
          (.mapping ((.scalar ktag "name" kline, .scalar "!!str" nv nline) :: rest) l) =
        if goTrimSpace nv = "linux" ∨ goTrimSpace nv = "windows" then []
        else [ve file nline ("os.name has unsupported value \x27" ++ nv ++ "\x27")]) ∧
    validatePod "pod.yaml" (some solarisDoc) =
      [ve "pod.yaml" 8 "os has unsupported value \x27solaris\x27"] := by
  refine ⟨fun file v line => rfl, fun file ktag kline nv nline rest l => rfl, by decide⟩

/-- C8: for every root mapping the output is the ordered concatenation
apiVersion, kind, metadata, spec; inside metadata the order is name,
namespace, labels, and inside spec it is os, containers; the collected
sequence is exactly these lists appended, never deduplicated or
re-sorted, as the all-fields-wrong manifest shows with its two
identical label-key errors surfacing in declaration order. -/
theorem validatePod_error_order :
    (∀ (fi : String) (pairs : List (YamlNode × YamlNode)) (l dl : Nat),
      validatePod fi (some (.document [.mapping pairs l] dl)) =
        (match lookupPairs pairs "apiVersion" with
         | none => [ve fi 0 "apiVersion is required"]
         | some apiV => validateStringEquals fi apiV "apiVersion" ["v1"])
        ++ (match lookupPairs pairs "kind" with
            | none => [ve fi 0 "kind is required"]
            | some kind => validateStringEquals fi kind "kind" ["Pod"])
        ++ (match lookupPairs pairs "metadata" with
            | none => [ve fi 0 "metadata is required"]
            | some meta => validateObjectMeta fi meta)
        ++ (match lookupPairs pairs "spec" with
            | none => [ve fi 0 "spec is required"]
            | some spec => validatePodSpec fi spec)) ∧
    (∀ (fi : String) (mpairs : List (YamlNode × YamlNode)) (ml : Nat),
      validateObjectMeta fi (.mapping mpairs ml) =
        (match lookupPairs mpairs "name" with
         | none => [ve fi 0 "metadata.name is required"]
         | some name => validateScalarType fi name "metadata.name" "string")
        ++ (match lookupPairs mpairs "namespace" with
            | none => []
            | some ns => validateScalarType fi ns "metadata.namespace" "string")
        ++ (match lookupPairs mpairs "labels" with
            | none => []
            | some (.mapping lpairs _) => validateLabelPairs fi lpairs
            | some other => [ve fi other.line "metadata.labels must be object"])) ∧
    (∀ (fi : String) (spairs : List (YamlNode × YamlNode)) (sl : Nat),
      validatePodSpec fi (.mapping spairs sl) =
        (match lookupPairs spairs "os" with
         | none => []
         | some osNode => validatePodOS fi osNode)
        ++ (match lookupPairs spairs "containers" with
            | none => [ve fi 0 "spec.containers is required"]
            | some cs => validateContainers fi cs)) ∧
    validatePod "pod.yaml" (some orderDoc) =
      [ve "pod.yaml" 1 "apiVersion has unsupported value \x27v2\x27",
       ve "pod.yaml" 2 "kind has unsupported value \x27Deployment\x27",
       ve "pod.yaml" 4 "metadata.name must be string",
       ve "pod.yaml" 6 "metadata.labels key must be string",
       ve "pod.yaml" 6 "metadata.labels key must be string",
       ve "pod.yaml" 8 "os has unsupported value \x27solaris\x27",
       ve "pod.yaml" 9 "spec.containers must be array"] := by
  exact ⟨fun fi pairs l dl => validatePod_eq_blocks fi _ pairs l rfl,
         fun fi mpairs ml => rfl, fun fi spairs sl => rfl, by decide⟩

/-- Characterisation of lastIndexOfChar: either the character does not
occur and the result is -1, or the result is the greatest index at
which it occurs. -/
theorem lastIndexOfChar_spec (cs : List Char) (c : Char) :
    (lastIndexOfChar cs c = -1 ∧ ∀ j, cs.get? j ≠ some c) ∨
    (∃ n : Nat, lastIndexOfChar cs c = n ∧ cs.get? n = some c ∧
      ∀ j, n < j → cs.get? j ≠ some c) := by
  induction cs with
  | nil =>
    left
    refine ⟨rfl, fun j h => ?_⟩
    cases j <;> cases h
  | cons x rest ih =>
    rcases ih with ⟨h1, h2⟩ | ⟨n, h1, h2, h3⟩
    · by_cases hx : x = c
      · right
        refine ⟨0, ?_, by simp [hx], fun j hj => ?_⟩
        · simp [lastIndexOfChar, h1, hx]
        · cases j with
          | zero => omega
          | succ k => exact h2 k
      · left
        refine ⟨by simp [lastIndexOfChar, h1, hx], fun j => ?_⟩
        cases j with
        | zero => simpa using hx
        | succ k => exact h2 k
    · right
      refine ⟨n + 1, ?_, h2, fun j hj => ?_⟩
      · simp only [lastIndexOfChar, h1]
        rw [if_pos (by omega : (0:Int) ≤ (n:Int))]
        push_cast
        ring
      · cases j with
        | zero => omega
        | succ k => exact h3 k (by omega)

/-- lastIndexOfChar never returns anything below -1. -/
theorem neg_one_le_lastIndexOfChar (cs : List Char) (c : Char) :
    -1 ≤ lastIndexOfChar cs c := by
  rcases lastIndexOfChar_spec cs c with ⟨h, _⟩ | ⟨n, h, _, _⟩
  · rw [h]
  · rw [h]; omega

/-- Any occurrence is bounded by lastIndexOfChar. -/
theorem le_lastIndexOfChar {cs : List Char} {c : Char} {j : Nat}
    (h : cs.get? j = some c) : (j : Int) ≤ lastIndexOfChar cs c := by
  rcases lastIndexOfChar_spec cs c with ⟨h1, h2⟩ | ⟨n, h1, h2, h3⟩
  · exact absurd h (h2 j)
  · rw [h1]
    by_contra hlt
    push_neg at hlt
    exact h3 j (by omega) h

/-- validImage agrees exactly with the positional grammar. -/
theorem validImage_iff (s : String) : validImage s = true ↔ imageTagSpec s := by
  unfold validImage imageTagSpec
  by_cases hp : goStartsWith s "registry.bigbrother.io/" = true
  · rw [if_pos hp]
    simp only [Bool.and_eq_true, decide_eq_true_eq]
    constructor
    · rintro ⟨h1, h2⟩
      rcases lastIndexOfChar_spec s.data ':' with ⟨hc1, _⟩ | ⟨n, hc1, hc2, hc3⟩
      · rw [hc1] at h1
        have := neg_one_le_lastIndexOfChar s.data '/'
        omega
      · rw [hc1] at h1 h2
        refine ⟨hp, n, hc2, by omega, fun j hj => ?_, fun j hj => ?_⟩
        · have := le_lastIndexOfChar hj
          omega
        · by_contra hgt
          push_neg at hgt
          exact hc3 j (by omega) hj
    · rintro ⟨-, i, hi, hlen, hsl, hcol⟩
      have hci : lastIndexOfChar s.data ':' = i := by
        rcases lastIndexOfChar_spec s.data ':' with ⟨h1, h2⟩ | ⟨n, h1, h2, h3⟩
        · exact absurd hi (h2 i)
        · have hni : n ≤ i := hcol n h2
          have hin : ¬ n < i := fun hlt => h3 i hlt hi
          have hd : n = i := by omega
          rw [h1, hd]
      refine ⟨?_, ?_⟩
      · rw [hci]
        rcases lastIndexOfChar_spec s.data '/' with ⟨h1, _⟩ | ⟨m, h1, h2, _⟩
        · rw [h1]; omega
        · rw [h1]
          have := hsl m h2
          omega
      · rw [hci]; omega
  · rw [if_neg hp]
    constructor
    · intro h; cases h
    · rintro ⟨h, -⟩; exact absurd h hp

/-- C5 (amended): an otherwise-valid document whose container image is
badimage yields exactly the single invalid-format error quoting the
value; and an image passes iff it starts with the registry prefix and
its last colon occurs after the last slash and is not the final
character (a non-empty tag after the last colon). -/
theorem validImage_characterization :
    (∀ s, validImage s = true ↔ imageTagSpec s) ∧
    validatePod "pod.yaml" (some badImageDoc) =
      [ve "pod.yaml" 8 "containers.image has invalid format \x27badimage\x27"] :=
  ⟨validImage_iff, by decide⟩

/-- C5 counterexample: on the image registry.bigbrother.io/a:b: the
literal reading of the claim (some colon after the last slash that is
not the final character) is satisfied, yet validImage rejects the
string, because the code anchors on the last colon, which here is the
final character. -/
theorem validImage_literal_divergence :
    imageClaimLiteral "registry.bigbrother.io/a:b:" ∧
    validImage "registry.bigbrother.io/a:b:" = false := by
  refine ⟨⟨by decide, 24, by decide, by decide, fun j hj => ?_⟩, by decide⟩
  have hlen : ("registry.bigbrother.io/a:b:" : String).data.length = 27 := by decide
  rcases Nat.lt_or_ge j 27 with h27 | h27
  · interval_cases j <;> revert hj <;> decide
  · exfalso
    rw [List.get?_eq_none.mpr (by omega)] at hj
    cases hj
